import Mathlib

/-!
# Verification of the Matheye repository

Shallow embedding of the Matheye handwritten-math-symbol recognizer:
the label-remapping and metadata-building functions of
`Model_Training/train_model.py` and the Flask inference service of
`web_app/app.py`, together with theorems settling the specification
claims about them.

Conventions of the embedding:
* Machine integers of the source are `Int`/`Nat`; floating-point pixel
  and probability values are modelled as exact rationals `ℚ`.
* Python dicts whose keys are inserted without duplicates are modelled
  as association lists (`List (k × v)`) queried with `List.lookup`.
* `numpy` array shapes are carried by function types over `Fin`.
-/

set_option maxRecDepth 100000

namespace Matheye

/-! ## `Model_Training/train_model.py` — `remap_labels` (lines 69-74)

`np.unique(labels)` returns the distinct values of `labels` sorted in
ascending order; `enumerate` pairs each with its position. -/

/-- `np.unique`: the distinct elements of the list, sorted ascending.
(Implemented with `dedup` + `insertionSort` so that it reduces inside the
kernel; `npUnique_sorted`, `npUnique_nodup` and `npUnique_mem` prove the
characterizing properties of `np.unique`.) -/
def npUnique (labels : List Int) : List Int :=
  labels.dedup.insertionSort (· ≤ ·)

/-- Python `enumerate` starting at `n`: pairs each element with its index. -/
def enumerateFrom {α : Type} (n : Nat) : List α → List (Nat × α)
  | [] => []
  | x :: xs => (n, x) :: enumerateFrom (n + 1) xs

/-- `forward = {int(old): int(new) for new, old in enumerate(unique)}` :
dict from original symbol id to its position in the sorted distinct list. -/
def forwardMap (labels : List Int) : List (Int × Nat) :=
  (enumerateFrom 0 (npUnique labels)).map (fun p => (p.2, p.1))

/-- `reverse = {int(new): int(old) for new, old in enumerate(unique)}` :
dict from position back to the original symbol id. -/
def reverseMap (labels : List Int) : List (Nat × Int) :=
  enumerateFrom 0 (npUnique labels)

/-- `remap_labels(labels)`: returns `(new_labels, forward, reverse)` where
`new_labels = np.array([forward[int(l)] for l in labels])`.  The dict
access `forward[int(l)]` always succeeds (the key is in `np.unique` of the
very same list); its association-list rendering is `lookup … |>.getD 0`,
and `remap_lookup_isSome` below shows the default is never taken. -/
def remap_labels (labels : List Int) : List Nat × List (Int × Nat) × List (Nat × Int) :=
  (labels.map (fun l => ((forwardMap labels).lookup l).getD 0),
   forwardMap labels, reverseMap labels)

/-! ### Lemmas about `enumerateFrom` and the two dictionaries -/

theorem enumerateFrom_length {α : Type} (n : Nat) (l : List α) :
    (enumerateFrom n l).length = l.length := by
  induction l generalizing n with
  | nil => rfl
  | cons a t ih => simp [enumerateFrom, ih]

theorem enumerateFrom_keys {α : Type} (n : Nat) (l : List α) :
    (enumerateFrom n l).map Prod.fst = List.range' n l.length := by
  induction l generalizing n with
  | nil => rfl
  | cons a t ih => simp [enumerateFrom, List.range', ih]

theorem enumerateFrom_values {α : Type} (n : Nat) (l : List α) :
    (enumerateFrom n l).map Prod.snd = l := by
  induction l generalizing n with
  | nil => rfl
  | cons a t ih => simp [enumerateFrom, ih]

/-- Looking up index `n + i` in `enumerateFrom n l` reads off element `i`. -/
theorem enumerateFrom_lookup {α : Type} (l : List α) (n i : Nat) :
    (enumerateFrom n l).lookup (n + i) = l.get? i := by
  induction l generalizing n i with
  | nil => simp [enumerateFrom]
  | cons a t ih =>
    cases i with
    | zero => simp [enumerateFrom, List.lookup]
    | succ j =>
      have hne : n + (j + 1) ≠ n := by omega
      have hb : (n + (j + 1) == n) = false := beq_false_of_ne hne
      simp only [enumerateFrom, List.lookup_cons, hb, List.get?_cons_succ]
      rw [show n + (j + 1) = n + 1 + j from by omega]
      exact ih (n + 1) j

/-- Looking up element `l.get i` in the swapped enumeration of a
duplicate-free list returns its index shifted by the start `n`. -/
theorem enumerateFrom_swap_lookup {α : Type} [DecidableEq α] (l : List α) :
    l.Nodup → ∀ (n i : Nat) (hi : i < l.length),
      ((enumerateFrom n l).map (fun p => (p.2, p.1))).lookup (l.get ⟨i, hi⟩) =
        some (n + i) := by
  induction l with
  | nil => intro _ n i hi; simp at hi
  | cons a t ih =>
    intro hl n i hi
    cases i with
    | zero => simp [enumerateFrom, List.lookup]
    | succ j =>
      have hj : j < t.length := by simpa using hi
      have hmem : t.get ⟨j, hj⟩ ∈ t := List.get_mem t j hj
      have hane : t.get ⟨j, hj⟩ ≠ a := by
        intro h
        exact (List.nodup_cons.mp hl).1 (h ▸ hmem)
      have hb : (t.get ⟨j, hj⟩ == a) = false := beq_false_of_ne hane
      have h1 := ih (List.nodup_cons.mp hl).2 (n + 1) j hj
      have hget : (a :: t).get ⟨j + 1, hi⟩ = t.get ⟨j, hj⟩ := rfl
      simp only [enumerateFrom, List.map_cons, List.lookup_cons, hget, hb]
      rw [h1]
      congr 1
      omega

theorem npUnique_nodup (labels : List Int) : (npUnique labels).Nodup :=
  (List.perm_insertionSort (· ≤ ·) labels.dedup).nodup_iff.mpr (List.nodup_dedup labels)

theorem npUnique_sorted (labels : List Int) : List.Sorted (· < ·) (npUnique labels) :=
  List.Sorted.lt_of_le (List.sorted_insertionSort (· ≤ ·) labels.dedup)
    (npUnique_nodup labels)

theorem npUnique_mem (labels : List Int) (x : Int) :
    x ∈ npUnique labels ↔ x ∈ labels := by
  unfold npUnique
  rw [(List.perm_insertionSort (· ≤ ·) labels.dedup).mem_iff]
  exact List.mem_dedup

theorem npUnique_length (labels : List Int) :
    (npUnique labels).length = labels.toFinset.card := by
  unfold npUnique
  rw [(List.perm_insertionSort (· ≤ ·) labels.dedup).length_eq, List.card_toFinset]

/-- The forward dict maps the `i`-th distinct (sorted) id to position `i`. -/
theorem forwardMap_lookup_get (labels : List Int) (i : Fin (npUnique labels).length) :
    (forwardMap labels).lookup ((npUnique labels).get i) = some i.1 := by
  have h := enumerateFrom_swap_lookup (npUnique labels) (npUnique_nodup labels) 0 i.1 i.2
  simpa [forwardMap] using h

/-- The reverse dict maps position `i` to the `i`-th distinct (sorted) id. -/
theorem reverseMap_lookup (labels : List Int) (i : Nat) :
    (reverseMap labels).lookup i = (npUnique labels).get? i := by
  have h := enumerateFrom_lookup (npUnique labels) 0 i
  simpa [reverseMap] using h

/-- Every raw id occurring in the input is a key of the forward dict. -/
theorem remap_lookup_isSome (labels : List Int) (x : Int) (hx : x ∈ labels) :
    ∃ i : Fin (npUnique labels).length,
      (npUnique labels).get i = x ∧ (forwardMap labels).lookup x = some i.1 := by
  have hmem : x ∈ npUnique labels := (npUnique_mem labels x).mpr hx
  obtain ⟨i, hi⟩ := List.mem_iff_get.mp hmem
  exact ⟨i, hi, hi ▸ forwardMap_lookup_get labels i⟩

/-- The keys of the forward dict are exactly the sorted distinct ids. -/
theorem forwardMap_keys (labels : List Int) :
    (forwardMap labels).map Prod.fst = npUnique labels := by
  unfold forwardMap
  rw [List.map_map]
  exact enumerateFrom_values 0 (npUnique labels)

/-- The keys of the reverse dict are exactly the indices `0 .. K-1`. -/
theorem reverseMap_keys (labels : List Int) :
    (reverseMap labels).map Prod.fst = List.range (npUnique labels).length := by
  unfold reverseMap
  rw [List.range_eq_range']
  exact enumerateFrom_keys 0 (npUnique labels)

theorem forwardMap_length (labels : List Int) :
    (forwardMap labels).length = labels.toFinset.card := by
  rw [forwardMap, List.length_map, enumerateFrom_length, npUnique_length]

theorem reverseMap_length (labels : List Int) :
    (reverseMap labels).length = labels.toFinset.card := by
  rw [reverseMap, enumerateFrom_length, npUnique_length]

/-- **C1.** For every input list of raw symbol ids, the `forward` and
`reverse` dicts built by `remap_labels` are exact inverses of each other:
`reverse (forward x) = x` for every observed id `x`, and
`forward (reverse i) = i` for every index `i` below the number of distinct
ids; both dicts have duplicate-free key lists whose length equals the
number of distinct ids appearing in the input. -/
theorem remap_labels_bijective (labels : List Int) (x : Int) (hx : x ∈ labels)
    (i : Nat) (hi : i < labels.toFinset.card) :
    (∃ j, (forwardMap labels).lookup x = some j ∧
      (reverseMap labels).lookup j = some x) ∧
    (∃ y, (reverseMap labels).lookup i = some y ∧
      (forwardMap labels).lookup y = some i) ∧
    ((forwardMap labels).map Prod.fst).Nodup ∧
    ((reverseMap labels).map Prod.fst).Nodup ∧
    (forwardMap labels).length = labels.toFinset.card ∧
    (reverseMap labels).length = labels.toFinset.card := by
  have hi' : i < (npUnique labels).length := by rw [npUnique_length]; exact hi
  refine ⟨?_, ?_, ?_, ?_, forwardMap_length labels, reverseMap_length labels⟩
  · obtain ⟨fi, hget, hfwd⟩ := remap_lookup_isSome labels x hx
    refine ⟨fi.1, hfwd, ?_⟩
    rw [reverseMap_lookup, List.get?_eq_get fi.2, hget]
  · refine ⟨(npUnique labels).get ⟨i, hi'⟩, ?_, ?_⟩
    · rw [reverseMap_lookup, List.get?_eq_get hi']
    · exact forwardMap_lookup_get labels ⟨i, hi'⟩
  · rw [forwardMap_keys]; exact npUnique_nodup labels
  · rw [reverseMap_keys]; exact List.nodup_range _

theorem remap_labels_bijective_witness :
    ∃ j, (forwardMap [(5 : Int), 2, 5, 9]).lookup 5 = some j ∧
      (reverseMap [(5 : Int), 2, 5, 9]).lookup j = some 5 :=
  (remap_labels_bijective [(5 : Int), 2, 5, 9] 5 (by decide) 2 (by decide)).1

/-- **C5.** `remap_labels` assigns each distinct observed id its rank in
ascending sorted order: the distinct-id list is strictly sorted and covers
exactly the observed ids, the forward dict sends its `k`-th element to `k`,
the reverse dict's keys are exactly `0 .. K-1`, and the returned label list
is the input with the forward dict applied elementwise (same length, same
order, every lookup succeeding). -/
theorem remap_labels_sorted_rank (labels : List Int) (k : Nat)
    (hk : k < (npUnique labels).length) (j : Nat) (hj : j < labels.length) :
    List.Sorted (· < ·) (npUnique labels) ∧
    (∀ x : Int, x ∈ npUnique labels ↔ x ∈ labels) ∧
    (forwardMap labels).lookup ((npUnique labels).get ⟨k, hk⟩) = some k ∧
    (reverseMap labels).map Prod.fst = List.range (npUnique labels).length ∧
    (remap_labels labels).1.length = labels.length ∧
    (remap_labels labels).1.get? j =
      some (((forwardMap labels).lookup (labels.get ⟨j, hj⟩)).getD 0) ∧
    ((forwardMap labels).lookup (labels.get ⟨j, hj⟩)).isSome = true := by
  refine ⟨npUnique_sorted labels, npUnique_mem labels,
    forwardMap_lookup_get labels ⟨k, hk⟩, reverseMap_keys labels, ?_, ?_, ?_⟩
  · simp [remap_labels]
  · simp only [remap_labels, List.get?_map, List.get?_eq_get hj, Option.map_some']
  · obtain ⟨fi, hget, hfwd⟩ :=
      remap_lookup_isSome labels (labels.get ⟨j, hj⟩) (List.get_mem labels j hj)
    rw [hfwd]
    rfl

theorem remap_labels_sorted_rank_witness :
    (remap_labels [(5 : Int), 2, 5, 9]).1.length = [(5 : Int), 2, 5, 9].length :=
  (remap_labels_sorted_rank [(5 : Int), 2, 5, 9] 0 (by decide) 0 (by decide)).2.2.2.2.1

/-! ## `Model_Training/train_model.py` — `create_label_mapping` (lines 81-167)

One row of the HASYv2 label table, after the `str(...)` conversions the
loop applies: `latex` stands for `str(row["latex"])` and `unicode` for
`str(row.get("unicode", ""))` (so a pandas `NaN` cell appears here as the
literal string `"nan"`, and a missing column as `""`). -/

structure LabelRow where
  symbol_id : Int
  latex : String
  unicode : String
deriving DecidableEq, Repr

/-- One value of the resulting `labels.json` mapping: the dict
`{"latex": …, "unicode": …}` stored per class. -/
structure SymbolInfo where
  latex : String
  unicode : String
deriving DecidableEq, Repr

/-- Identity pairs `str(i) ↦ str(i)` for the digits `0..9`. -/
def digitPairs : List (String × String) :=
  (List.range 10).map (fun i => (toString i, toString i))

/-- Identity pairs for the lowercase letters `a..z`. -/
def lowercasePairs : List (String × String) :=
  (List.range 26).map
    (fun i => (String.singleton (Char.ofNat (97 + i)), String.singleton (Char.ofNat (97 + i))))

/-- Identity pairs for the uppercase letters `A..Z`. -/
def uppercasePairs : List (String × String) :=
  (List.range 26).map
    (fun i => (String.singleton (Char.ofNat (65 + i)), String.singleton (Char.ofNat (65 + i))))

/-- The static `latex_to_unicode` dict of `create_label_mapping`
(train_model.py lines 84-143), in source order.  Its keys are pairwise
distinct, so association-list lookup agrees with Python dict lookup. -/
def latex_to_unicode : List (String × String) :=
  [("\\alpha", "α"), ("\\beta", "β"), ("\\gamma", "γ"), ("\\delta", "δ"),
   ("\\epsilon", "ε"), ("\\zeta", "ζ"), ("\\eta", "η"), ("\\theta", "θ"),
   ("\\iota", "ι"), ("\\kappa", "κ"), ("\\lambda", "λ"), ("\\mu", "μ"),
   ("\\nu", "ν"), ("\\xi", "ξ"), ("\\pi", "π"), ("\\rho", "ρ"),
   ("\\sigma", "σ"), ("\\tau", "τ"), ("\\upsilon", "υ"), ("\\phi", "φ"),
   ("\\chi", "χ"), ("\\psi", "ψ"), ("\\omega", "ω"),
   ("\\Gamma", "Γ"), ("\\Delta", "Δ"), ("\\Theta", "Θ"), ("\\Lambda", "Λ"),
   ("\\Xi", "Ξ"), ("\\Pi", "Π"), ("\\Sigma", "Σ"), ("\\Phi", "Φ"),
   ("\\Psi", "Ψ"), ("\\Omega", "Ω"),
   ("\\sum", "∑"), ("\\prod", "∏"), ("\\int", "∫"), ("\\oint", "∮"),
   ("\\infty", "∞"), ("\\partial", "∂"), ("\\nabla", "∇"),
   ("\\pm", "±"), ("\\mp", "∓"), ("\\times", "×"), ("\\div", "÷"),
   ("\\cdot", "·"), ("\\ast", "∗"),
   ("\\neq", "≠"), ("\\leq", "≤"), ("\\geq", "≥"), ("\\ll", "≪"), ("\\gg", "≫"),
   ("\\approx", "≈"), ("\\equiv", "≡"), ("\\sim", "∼"), ("\\simeq", "≃"),
   ("\\propto", "∝"),
   ("\\forall", "∀"), ("\\exists", "∃"), ("\\neg", "¬"),
   ("\\wedge", "∧"), ("\\vee", "∨"),
   ("\\emptyset", "∅"), ("\\cap", "∩"), ("\\cup", "∪"),
   ("\\subset", "⊂"), ("\\supset", "⊃"),
   ("\\subseteq", "⊆"), ("\\supseteq", "⊇"),
   ("\\in", "∈"), ("\\notin", "∉"), ("\\ni", "∋"),
   ("\\rightarrow", "→"), ("\\leftarrow", "←"), ("\\uparrow", "↑"),
   ("\\downarrow", "↓"),
   ("\\Rightarrow", "⇒"), ("\\Leftarrow", "⇐"),
   ("\\leftrightarrow", "↔"), ("\\Leftrightarrow", "⇔"),
   ("\\to", "→"), ("\\gets", "←"), ("\\mapsto", "↦"),
   ("\\angle", "∠"), ("\\perp", "⊥"), ("\\parallel", "∥"), ("\\triangle", "△")]
  ++ digitPairs ++ lowercasePairs ++ uppercasePairs ++
  [("+", "+"), ("-", "-"), ("=", "="), ("<", "<"), (">", ">"),
   ("(", "("), (")", ")"), ("[", "["), ("]", "]"),
   ("\x7b", "\x7b"), ("\x7d", "\x7d"), ("/", "/"), ("*", "*"),
   ("^", "^"), ("_", "_"), ("!", "!"), ("?", "?"),
   (".", "."), (",", ","), (":", ":"), (";", ";")]

/-- The body of the `create_label_mapping` row loop (lines 152-161): the
entry stored for a row, with the blank/`"nan"` Unicode fallback through
the static `latex_to_unicode` table (`dict.get(latex, "")`). -/
def rowEntry (row : LabelRow) : SymbolInfo :=
  { latex := row.latex,
    unicode :=
      if row.unicode = "" ∨ row.unicode = "nan" then
        (latex_to_unicode.lookup row.latex).getD ""
      else row.unicode }

/-- `create_label_mapping(labels_csv, …)` (lines 145-167): iterate the
rows; key each entry by `str(int(row["symbol_id"]))`; skip a row whose key
is already present (`if sid in label_map: continue`).  The resulting dict
is an association list in insertion order. -/
def create_label_mapping (rows : List LabelRow) : List (String × SymbolInfo) :=
  rows.foldl
    (fun acc row =>
      if (acc.lookup (toString row.symbol_id)).isSome then acc
      else acc ++ [(toString row.symbol_id, rowEntry row)])
    []

/-- Generalized fold invariant: a key's final value is its value in the
accumulator if present, else the entry of its first-occurring row. -/
theorem create_label_mapping_foldl_lookup (rows : List LabelRow)
    (acc : List (String × SymbolInfo)) (sid : String) :
    (rows.foldl
      (fun acc row =>
        if (acc.lookup (toString row.symbol_id)).isSome then acc
        else acc ++ [(toString row.symbol_id, rowEntry row)])
      acc).lookup sid =
    (acc.lookup sid).or
      ((rows.find? (fun r => toString r.symbol_id == sid)).map rowEntry) := by
  induction rows generalizing acc with
  | nil => simp
  | cons r rest ih =>
    simp only [List.foldl_cons]
    by_cases hk : toString r.symbol_id = sid
    · by_cases hacc : ((acc.lookup (toString r.symbol_id)).isSome : Prop)
      · rw [if_pos hacc, ih]
        obtain ⟨v, hv⟩ := Option.isSome_iff_exists.mp (hk ▸ hacc)
        simp [hv, List.find?_cons_of_pos, hk]
      · rw [if_neg hacc, ih, List.lookup_append]
        have hnone : acc.lookup sid = none := by
          rw [← hk]
          exact Option.not_isSome_iff_eq_none.mp hacc
        simp [hnone, List.find?_cons_of_pos, hk, List.lookup_cons, beq_iff_eq]
    · have hfind : (r :: rest).find? (fun r => toString r.symbol_id == sid) =
          rest.find? (fun r => toString r.symbol_id == sid) :=
        List.find?_cons_of_neg rest (by simpa using hk)
      rw [hfind]
      by_cases hacc : ((acc.lookup (toString r.symbol_id)).isSome : Prop)
      · rw [if_pos hacc, ih]
      · rw [if_neg hacc, ih, List.lookup_append]
        have hb : (sid == toString r.symbol_id) = false :=
          beq_false_of_ne (fun h => hk h.symm)
        have h1 : ([(toString r.symbol_id, rowEntry r)].lookup sid :
            Option SymbolInfo) = none := by
          simp [List.lookup_cons, hb]
        rw [h1, Option.or_none]

/-- Looking up a key in the finished mapping gives the entry built from
that key's first-occurring row. -/
theorem create_label_mapping_lookup (rows : List LabelRow) (sid : String) :
    (create_label_mapping rows).lookup sid =
      (rows.find? (fun r => toString r.symbol_id == sid)).map rowEntry := by
  rw [create_label_mapping, create_label_mapping_foldl_lookup]
  simp

/-- Fold invariant: the accumulated key list stays duplicate-free. -/
theorem create_label_mapping_foldl_nodup (rows : List LabelRow)
    (acc : List (String × SymbolInfo)) (hacc : (acc.map Prod.fst).Nodup) :
    ((rows.foldl
      (fun acc row =>
        if (acc.lookup (toString row.symbol_id)).isSome then acc
        else acc ++ [(toString row.symbol_id, rowEntry row)])
      acc).map Prod.fst).Nodup := by
  induction rows generalizing acc with
  | nil => exact hacc
  | cons r rest ih =>
    simp only [List.foldl_cons]
    by_cases h : ((acc.lookup (toString r.symbol_id)).isSome : Prop)
    · rw [if_pos h]; exact ih acc hacc
    · rw [if_neg h]
      refine ih _ ?_
      have hnone : acc.lookup (toString r.symbol_id) = none :=
        Option.not_isSome_iff_eq_none.mp h
      have hnotmem : toString r.symbol_id ∉ acc.map Prod.fst := by
        intro hmem
        obtain ⟨p, hp, hfst⟩ := List.mem_map.mp hmem
        have := List.lookup_eq_none_iff.mp hnone p hp
        simp [← hfst] at this
      rw [List.map_append, List.nodup_append]
      refine ⟨hacc, by simp, ?_⟩
      intro a ha hb
      simp only [List.map_cons, List.map_nil, List.mem_singleton] at hb
      exact hnotmem (hb ▸ ha)

theorem create_label_mapping_keys_nodup (rows : List LabelRow) :
    ((create_label_mapping rows).map Prod.fst).Nodup :=
  create_label_mapping_foldl_nodup rows [] (by simp)

/-- Entries inherit a non-empty LaTeX string from their source row. -/
theorem create_label_mapping_latex_ne (rows : List LabelRow)
    (h : ∀ r ∈ rows, r.latex ≠ "") (sid : String) (info : SymbolInfo)
    (hl : (create_label_mapping rows).lookup sid = some info) :
    info.latex ≠ "" := by
  rw [create_label_mapping_lookup] at hl
  cases hfind : rows.find? (fun r => toString r.symbol_id == sid) with
  | none => rw [hfind] at hl; simp at hl
  | some r =>
    rw [hfind] at hl
    simp only [Option.map_some', Option.some.injEq] at hl
    have hr : r ∈ rows := List.mem_of_find?_eq_some hfind
    rw [← hl]
    exact h r hr

/-! ## `web_app/app.py` — the inference service

The uploaded file, after PIL has decoded it, converted it to grayscale
(`convert('L')`, one `uint8` per pixel) and resized it to 32×32
(`img.resize((32, 32))`), is a 32×32 grid of bytes; the shape lives in
the type.  Decoding and resizing are library internals of PIL, so the
embedding starts from the decoded grid. -/

/-- A decoded, grayscale, 32×32-resized upload: one `uint8` per pixel. -/
def Image32 : Type := Fin 32 → Fin 32 → Fin 256

/-- A `(1, 32, 32, 1)`-shaped batch of normalized pixels, the shape
`img_array.reshape(1, 32, 32, 1)` produced by `preprocess_image`. -/
def Batch : Type := Fin 1 → Fin 32 → Fin 32 → Fin 1 → ℚ

/-- The loaded Keras model, seen through the only call the service makes:
`model.predict(img_array, verbose=0)[0]`, the probability row for the
single sample in the batch. -/
def ModelFn : Type := Batch → List ℚ

/-- `preprocess_image` (app.py lines 54-81): after decode/grayscale/resize,
`np.array(img) / 255.0` followed by `reshape(1, 32, 32, 1)`. -/
def preprocess_image (img : Image32) : Batch :=
  fun _ i j _ => ((img i j).1 : ℚ) / 255

/-- `img_array.squeeze()` flattened row-major, the array the pre-filter
statistics run over (`np.mean` and `np.std` aggregate over all elements
regardless of shape). -/
def squeeze (arr : Batch) : List ℚ :=
  (List.finRange 32).flatMap (fun i => (List.finRange 32).map (fun j => arr 0 i j 0))

/-- `np.mean`: sum divided by length. -/
def npMean (l : List ℚ) : ℚ := l.sum / l.length

/-- The population variance `np.std(l) ** 2 = mean((x - mean l) ** 2)`.
`np.std` itself is the square root; since the service only compares the
standard deviation against a positive constant, every theorem phrases the
comparison through `Real.sqrt` of this variance. -/
def npVariance (l : List ℚ) : ℚ :=
  npMean (l.map (fun x => (x - npMean l) ^ 2))

/-- `foreground_fraction = float(np.mean(flat < 0.85))` (app.py line 109):
the fraction of pixels strictly darker than 0.85. -/
def foreground_fraction (l : List ℚ) : ℚ :=
  (l.countP (fun p => decide (p < 85 / 100)) : ℚ) / l.length

/-- `CONFIDENCE_THRESHOLD = 0.85` (app.py line 10). -/
def CONFIDENCE_THRESHOLD : ℚ := 85 / 100

/-- `MIN_FOREGROUND_FRACTION = 0.02` (app.py line 13). -/
def MIN_FOREGROUND_FRACTION : ℚ := 2 / 100

/-- `MAX_FOREGROUND_FRACTION = 0.60` (app.py line 14). -/
def MAX_FOREGROUND_FRACTION : ℚ := 60 / 100

/-- `MIN_STD_DEV = 0.05` (app.py line 15). -/
def MIN_STD_DEV : ℚ := 5 / 100

/-- The pre-filter test of app.py line 112:
`std_dev < MIN_STD_DEV or foreground_fraction < MIN_FOREGROUND_FRACTION
or foreground_fraction > MAX_FOREGROUND_FRACTION`.  The first disjunct is
rendered on the variance: for a nonnegative radicand and positive bound,
`np.std(l) < MIN_STD_DEV ↔ npVariance l < MIN_STD_DEV ^ 2`
(`sqrt_npVariance_lt_iff` below proves this bridge). -/
def preFilterRejects (pix : List ℚ) : Bool :=
  decide (npVariance pix < MIN_STD_DEV ^ 2) ||
  decide (foreground_fraction pix < MIN_FOREGROUND_FRACTION) ||
  decide (foreground_fraction pix > MAX_FOREGROUND_FRACTION)

/-- Inner loop of `np.argmax`: scan with the index and value of the best
element so far, replacing it only on strict improvement (so the first
maximum wins, as in numpy). -/
def argmaxAux : List ℚ → Nat → Nat → ℚ → Nat
  | [], _, best, _ => best
  | x :: xs, i, best, bestVal =>
    if bestVal < x then argmaxAux xs (i + 1) i x
    else argmaxAux xs (i + 1) best bestVal

/-- `np.argmax(predictions[0])` (app.py line 122): index of the first
occurrence of the largest value (0 for the empty list). -/
def npArgmax : List ℚ → Nat
  | [] => 0
  | x :: xs => argmaxAux xs 1 0 x

/-- The JSON body of a `/predict` response: every key any branch of the
handler may emit, absent keys as `none`. -/
structure PredictResponse where
  success : Bool
  status : Option String := none
  message : Option String := none
  error : Option String := none
  symbol : Option String := none
  unicode : Option String := none
  latex : Option String := none
  confidence : Option ℚ := none
deriving DecidableEq, Repr

/-- A finished `/predict` request: JSON body, HTTP status code (Flask
defaults to 200 when no explicit code is given), and whether
`model.predict` was invoked on the way. -/
structure PredictOutcome where
  body : PredictResponse
  httpCode : Nat
  modelRan : Bool
deriving DecidableEq, Repr

/-- app.py line 98. -/
def modelNotLoadedResponse : PredictResponse :=
  { success := false, error := some "Model not loaded. Please check server logs." }

/-- app.py line 100. -/
def noImageResponse : PredictResponse :=
  { success := false, error := some "No image provided in the request." }

/-- app.py lines 113-117 and 167-171 (the two `unrecognized` returns build
identical JSON). -/
def unrecognizedResponse : PredictResponse :=
  { success := true, status := some "unrecognized",
    message := some "No math symbol recognised." }

/-- app.py lines 132-136. -/
def labelMismatchResponse (idx : Nat) : PredictResponse :=
  { success := false, status := some "data_error",
    error := some ("Label file mismatch. Index " ++ toString idx ++ " not found.") }

/-- app.py lines 148-152. -/
def emptyLabelResponse : PredictResponse :=
  { success := false, status := some "data_error",
    error := some "Label found, but both Unicode and LaTeX strings were empty." }

/-- app.py lines 154-161. -/
def recognizedResponse (info : SymbolInfo) (conf : ℚ) : PredictResponse :=
  { success := true, status := some "recognized",
    symbol := some info.unicode, unicode := some info.unicode,
    latex := some info.latex, confidence := some (conf * 100) }

/-- The `/predict` handler (app.py lines 88-180).  `model` and `labels`
are the module globals; `upload` is the decoded upload, `none` when the
request carries no image (or an empty filename).  The handler is a total
function: every branch returns a response, none throws. -/
def predict (model : Option ModelFn) (labels : List (String × SymbolInfo))
    (upload : Option Image32) : PredictOutcome :=
  match model with
  | none => ⟨modelNotLoadedResponse, 500, false⟩
  | some m =>
    match upload with
    | none => ⟨noImageResponse, 400, false⟩
    | some img =>
      let img_array := preprocess_image img
      let flat := squeeze img_array
      if preFilterRejects flat then ⟨unrecognizedResponse, 200, false⟩
      else
        let predictions := m img_array
        let top_idx := npArgmax predictions
        let top_confidence := predictions.getD top_idx 0
        match labels.lookup (toString top_idx) with
        | none => ⟨labelMismatchResponse top_idx, 500, true⟩
        | some symbol_info =>
          if CONFIDENCE_THRESHOLD ≤ top_confidence then
            if symbol_info.unicode = "" ∧ symbol_info.latex = "" then
              ⟨emptyLabelResponse, 500, true⟩
            else ⟨recognizedResponse symbol_info top_confidence, 200, true⟩
          else ⟨unrecognizedResponse, 200, true⟩

/-- The JSON body of `/health` (app.py lines 181-189). -/
structure HealthResponse where
  status : String
  model_loaded : Bool
  labels_loaded : Bool
  num_classes : Nat
deriving DecidableEq, Repr

/-- The `/health` handler: no explicit status code, so Flask serves 200. -/
def health (model : Option ModelFn) (labels : List (String × SymbolInfo)) :
    HealthResponse × Nat :=
  (⟨"healthy", model.isSome, decide (0 < labels.length), labels.length⟩, 200)

/-- Startup model loading (app.py lines 36-42): `load_model` either
returns a model or raises; the `except` arm logs and leaves the global
`model = None`, and the process continues. -/
def loadModelStartup (r : Except String ModelFn) : Option ModelFn :=
  match r with
  | .ok m => some m
  | .error _ => none

/-! ### Pixel-statistics bridge lemmas

The pre-filter statistics of a preprocessed image are determined by three
natural-number aggregates of the raw bytes — the dark-pixel count, the
byte sum, and the byte sum of squares — which, unlike rational
arithmetic, evaluate inside the kernel for concrete images. -/

/-- The raw bytes of the image, flattened row-major like `squeeze`. -/
def pixelNatList (img : Image32) : List Nat :=
  (List.finRange 32).flatMap (fun i => (List.finRange 32).map (fun j => (img i j).1))

/-- Number of bytes at most 216 — the dark pixels (`v / 255 < 0.85`). -/
def byteDarkCount (img : Image32) : Nat :=
  (pixelNatList img).countP (fun v => decide (v ≤ 216))

/-- Sum of the raw bytes. -/
def byteSum (img : Image32) : Nat := (pixelNatList img).sum

/-- Sum of squares of the raw bytes. -/
def byteSqSum (img : Image32) : Nat :=
  ((pixelNatList img).map (fun v => v ^ 2)).sum

theorem squeeze_preprocess (img : Image32) :
    squeeze (preprocess_image img) =
      (pixelNatList img).map (fun v : Nat => (v : ℚ) / 255) := by
  rw [pixelNatList, List.map_flatMap, squeeze]
  congr 1

theorem pixelNatList_length (img : Image32) : (pixelNatList img).length = 1024 := by
  rw [pixelNatList, List.length_flatMap]
  have h : (List.finRange 32).map
      (List.length ∘ fun i => (List.finRange 32).map (fun j => (img i j).1)) =
      List.replicate (List.finRange 32).length 32 := by
    rw [← List.map_const]
    apply List.map_congr_left
    intro i _
    simp [Function.comp]
  rw [h, List.sum_replicate, List.length_finRange, smul_eq_mul]

theorem squeeze_length (img : Image32) :
    (squeeze (preprocess_image img)).length = 1024 := by
  rw [squeeze_preprocess, List.length_map, pixelNatList_length]

/-- A normalized byte is a foreground ("dark") pixel iff the byte is at
most 216 (`v / 255 < 0.85  ↔  v ≤ 216` for natural `v`). -/
theorem foreground_byte_iff (v : Nat) : ((v : ℚ) / 255 < 85 / 100) ↔ v ≤ 216 := by
  rw [div_lt_iff₀ (by norm_num : (0 : ℚ) < 255)]
  constructor
  · intro h
    have h4 : ((v : ℚ)) * 4 < 867 := by linarith
    have h4n : v * 4 < 867 := by exact_mod_cast h4
    omega
  · intro h
    have hc : (v : ℚ) ≤ 216 := by exact_mod_cast h
    linarith

theorem foreground_fraction_preprocess (img : Image32) :
    foreground_fraction (squeeze (preprocess_image img)) =
      (byteDarkCount img : ℚ) / 1024 := by
  rw [foreground_fraction, squeeze_preprocess, List.countP_map, List.length_map,
    pixelNatList_length, byteDarkCount]
  have hfun : ((fun p : ℚ => decide (p < 85 / 100)) ∘ fun v : Nat => (v : ℚ) / 255) =
      (fun v : Nat => decide (v ≤ 216)) := by
    funext v
    simp only [Function.comp]
    exact decide_eq_decide.mpr (foreground_byte_iff v)
  rw [hfun]
  norm_num

theorem sum_map_div255 (l : List Nat) :
    (l.map (fun v : Nat => (v : ℚ) / 255)).sum = (l.sum : ℚ) / 255 := by
  induction l with
  | nil => simp
  | cons a t ih =>
    simp only [List.map_cons, List.sum_cons, List.sum_cons, ih]
    push_cast
    ring

theorem sum_map_div255_sq (l : List Nat) :
    (l.map (fun v : Nat => ((v : ℚ) / 255) ^ 2)).sum =
      (((l.map (fun v => v ^ 2)).sum : ℕ) : ℚ) / 65025 := by
  induction l with
  | nil => simp
  | cons a t ih =>
    simp only [List.map_cons, List.sum_cons, ih]
    push_cast
    ring

theorem npMean_preprocess (img : Image32) :
    npMean (squeeze (preprocess_image img)) = (byteSum img : ℚ) / 255 / 1024 := by
  rw [npMean, squeeze_preprocess, sum_map_div255, List.length_map, pixelNatList_length,
    byteSum]
  norm_num

/-- Expanding the squared deviation: `Σ (x-μ)² = Σ x² - 2 μ Σ x + n μ²`. -/
theorem sum_sq_dev (l : List ℚ) (mu : ℚ) :
    (l.map (fun x => (x - mu) ^ 2)).sum =
      (l.map (fun x => x ^ 2)).sum - 2 * mu * l.sum + l.length * mu ^ 2 := by
  induction l with
  | nil => simp
  | cons a t ih =>
    simp only [List.map_cons, List.sum_cons, List.length_cons, ih]
    push_cast
    ring

theorem npVariance_preprocess (img : Image32) :
    npVariance (squeeze (preprocess_image img)) =
      (byteSqSum img : ℚ) / 65025 / 1024 - ((byteSum img : ℚ) / 255 / 1024) ^ 2 := by
  have hmu := npMean_preprocess img
  rw [npVariance, hmu, npMean, sum_sq_dev, List.length_map, squeeze_length,
    squeeze_preprocess, sum_map_div255]
  have hsq : ((pixelNatList img).map (fun v : Nat => (v : ℚ) / 255)).map
      (fun x => x ^ 2) =
      (pixelNatList img).map (fun v : Nat => ((v : ℚ) / 255) ^ 2) := by
    rw [List.map_map]
    rfl
  rw [hsq, sum_map_div255_sq, byteSqSum, byteSum]
  push_cast
  ring

theorem npVariance_nonneg (l : List ℚ) : 0 ≤ npVariance l := by
  rw [npVariance, npMean]
  apply div_nonneg
  · apply List.sum_nonneg
    intro x hx
    obtain ⟨y, _, rfl⟩ := List.mem_map.mp hx
    positivity
  · positivity

/-- The bridge the pre-filter rendering rests on:
`np.std(l) < 0.05  ↔  variance(l) < 0.05²` (square root against a
positive bound). -/
theorem sqrt_npVariance_lt_iff (l : List ℚ) :
    Real.sqrt ((npVariance l : ℝ)) < 5 / 100 ↔ npVariance l < MIN_STD_DEV ^ 2 := by
  rw [Real.sqrt_lt' (by norm_num : (0 : ℝ) < 5 / 100), MIN_STD_DEV]
  rw [show ((5 : ℝ) / 100) ^ 2 = (((5 / 100 : ℚ) ^ 2 : ℚ) : ℝ) from by push_cast; ring]
  exact Rat.cast_lt

theorem preFilterRejects_iff (pix : List ℚ) :
    preFilterRejects pix = true ↔
      (Real.sqrt ((npVariance pix : ℝ)) < 5 / 100 ∨
        foreground_fraction pix < 2 / 100 ∨ foreground_fraction pix > 60 / 100) := by
  rw [preFilterRejects]
  simp only [Bool.or_eq_true, decide_eq_true_eq, MIN_FOREGROUND_FRACTION,
    MAX_FOREGROUND_FRACTION]
  rw [← sqrt_npVariance_lt_iff pix]
  exact or_assoc

/-! ### Control-flow lemmas for `predict` -/

/-- `model.predict` runs exactly when the pre-filter passes. -/
theorem predict_modelRan (m : ModelFn) (labels : List (String × SymbolInfo))
    (img : Image32) :
    (predict (some m) labels (some img)).modelRan =
      ! preFilterRejects (squeeze (preprocess_image img)) := by
  by_cases h : preFilterRejects (squeeze (preprocess_image img))
  · simp [predict, h]
  · simp only [predict, h, Bool.not_false, Bool.false_eq_true, if_false]
    cases hl : labels.lookup (toString (npArgmax (m (preprocess_image img)))) with
    | none => simp [hl]
    | some info =>
      simp only [hl]
      split
      · split <;> rfl
      · rfl

/-- When the pre-filter rejects, the request short-circuits. -/
theorem predict_reject (m : ModelFn) (labels : List (String × SymbolInfo))
    (img : Image32)
    (hpre : preFilterRejects (squeeze (preprocess_image img)) = true) :
    predict (some m) labels (some img) = ⟨unrecognizedResponse, 200, false⟩ := by
  simp [predict, hpre]

/-- When the pre-filter passes, the handler continues with the model's
prediction row. -/
theorem predict_pass (m : ModelFn) (labels : List (String × SymbolInfo))
    (img : Image32)
    (hpre : preFilterRejects (squeeze (preprocess_image img)) = false) :
    predict (some m) labels (some img) =
      (match labels.lookup (toString (npArgmax (m (preprocess_image img)))) with
       | none => ⟨labelMismatchResponse (npArgmax (m (preprocess_image img))), 500, true⟩
       | some symbol_info =>
         if CONFIDENCE_THRESHOLD ≤
             (m (preprocess_image img)).getD (npArgmax (m (preprocess_image img))) 0 then
           if symbol_info.unicode = "" ∧ symbol_info.latex = "" then
             ⟨emptyLabelResponse, 500, true⟩
           else
             ⟨recognizedResponse symbol_info
               ((m (preprocess_image img)).getD (npArgmax (m (preprocess_image img))) 0),
              200, true⟩
         else ⟨unrecognizedResponse, 200, true⟩ : PredictOutcome) := by
  simp only [predict, hpre, Bool.false_eq_true, if_false]

/-- Passing pre-filter, predicted index absent from the table. -/
theorem predict_pass_none (m : ModelFn) (labels : List (String × SymbolInfo))
    (img : Image32)
    (hpre : preFilterRejects (squeeze (preprocess_image img)) = false)
    (hlook : labels.lookup (toString (npArgmax (m (preprocess_image img)))) = none) :
    predict (some m) labels (some img) =
      ⟨labelMismatchResponse (npArgmax (m (preprocess_image img))), 500, true⟩ := by
  rw [predict_pass m labels img hpre, hlook]

/-- Passing pre-filter, predicted index present in the table. -/
theorem predict_pass_some (m : ModelFn) (labels : List (String × SymbolInfo))
    (img : Image32) (info : SymbolInfo)
    (hpre : preFilterRejects (squeeze (preprocess_image img)) = false)
    (hlook : labels.lookup (toString (npArgmax (m (preprocess_image img)))) = some info) :
    predict (some m) labels (some img) =
      (if CONFIDENCE_THRESHOLD ≤
          (m (preprocess_image img)).getD (npArgmax (m (preprocess_image img))) 0 then
        if info.unicode = "" ∧ info.latex = "" then
          ⟨emptyLabelResponse, 500, true⟩
        else
          ⟨recognizedResponse info
            ((m (preprocess_image img)).getD (npArgmax (m (preprocess_image img))) 0),
           200, true⟩
      else ⟨unrecognizedResponse, 200, true⟩ : PredictOutcome) := by
  rw [predict_pass m labels img hpre, hlook]

/-! ### Concrete inputs for the witnesses -/

/-- A half-dark test image: the left 16 columns black (byte 0), the right
16 columns white (byte 255). -/
def imgHalf : Image32 := fun _ j => if j.1 < 16 then 0 else 255

theorem imgHalf_byteDarkCount : byteDarkCount imgHalf = 512 := by decide

theorem imgHalf_byteSum : byteSum imgHalf = 130560 := by decide

theorem imgHalf_byteSqSum : byteSqSum imgHalf = 33292800 := by decide

/-- The half-dark image passes the pre-filter: its foreground fraction is
1/2 and its pixel variance is 1/4. -/
theorem imgHalf_prefilter :
    preFilterRejects (squeeze (preprocess_image imgHalf)) = false := by
  have hfg := foreground_fraction_preprocess imgHalf
  rw [imgHalf_byteDarkCount] at hfg
  have hvar := npVariance_preprocess imgHalf
  rw [imgHalf_byteSum, imgHalf_byteSqSum] at hvar
  rw [preFilterRejects, hfg, hvar]
  simp only [Bool.or_eq_false_iff, decide_eq_false_iff_not, not_lt,
    MIN_STD_DEV, MIN_FOREGROUND_FRACTION, MAX_FOREGROUND_FRACTION]
  norm_num

/-- A boundary pixel list: 1 black pixel among 50, giving foreground
fraction exactly `0.02`.  (No 32×32 image attains the fraction exactly —
`0.02 · 1024` is not an integer — so the boundary scenario lives at the
level of the pixel statistics the comparison operators act on.) -/
def pixBoundary : List ℚ := List.replicate 1 0 ++ List.replicate 49 1

theorem countP_replicate {α : Type} (p : α → Bool) (n : Nat) (x : α) :
    (List.replicate n x).countP p = if p x then n else 0 := by
  induction n with
  | zero => simp
  | succ k ih =>
    rw [List.replicate_succ, List.countP_cons, ih]
    by_cases h : p x <;> simp [h]

theorem pixBoundary_fg : foreground_fraction pixBoundary = 2 / 100 := by
  rw [foreground_fraction, pixBoundary, List.countP_append, countP_replicate,
    countP_replicate]
  norm_num

theorem pixBoundary_mean : npMean pixBoundary = 49 / 50 := by
  rw [npMean, pixBoundary]
  simp only [List.sum_append, List.sum_replicate, List.length_append,
    List.length_replicate, smul_eq_mul]
  norm_num

theorem pixBoundary_var : npVariance pixBoundary = 49 / 2500 := by
  rw [npVariance, pixBoundary_mean, pixBoundary]
  rw [npMean]
  simp only [List.map_append, List.map_replicate, List.sum_append,
    List.sum_replicate, List.length_map, List.length_append,
    List.length_replicate, smul_eq_mul]
  norm_num

/-! ### Response-distinguishing lemmas -/

/-- The two `data_error` bodies differ (their error strings disagree at
character 7: `"Label fi…"` vs `"Label fo…"`), for every predicted index. -/
theorem labelMismatch_ne_emptyLabel (idx : Nat) :
    labelMismatchResponse idx ≠ emptyLabelResponse := by
  intro h
  have herr := congrArg PredictResponse.error h
  simp only [labelMismatchResponse, emptyLabelResponse, Option.some.injEq] at herr
  have hchar := congrArg (fun s : String => s.data[7]?) herr
  simp only [String.data_append] at hchar
  have hlen : ("Label file mismatch. Index ".data).length = 27 := by decide
  rw [List.getElem?_append_left (by rw [List.length_append, hlen]; omega),
    List.getElem?_append_left (by rw [hlen]; omega)] at hchar
  exact absurd hchar (by decide)

theorem recognized_ne_emptyLabel (info : SymbolInfo) (c : ℚ) :
    recognizedResponse info c ≠ emptyLabelResponse := by
  intro h
  have hs := congrArg PredictResponse.success h
  simp [recognizedResponse, emptyLabelResponse] at hs

theorem unrecognized_ne_emptyLabel : unrecognizedResponse ≠ emptyLabelResponse := by
  intro h
  have hs := congrArg PredictResponse.success h
  simp [unrecognizedResponse, emptyLabelResponse] at hs

/-! ## The claims about the inference service -/

/-- **C2.** After preprocessing, a `/predict` request short-circuits to the
`unrecognized` response without running the model exactly when the pixel
standard deviation is strictly below 0.05, or the foreground fraction is
strictly below 0.02 or strictly above 0.60; and pixel statistics sitting
exactly on the 0.02 or 0.60 boundary with standard deviation at least
0.05 pass the pre-filter (all comparisons are strict).  The boundary case
is stated on the pre-filter's pixel statistics: no 32×32 image attains
foreground fraction exactly 0.02 or 0.60 (`0.02 · 1024` and `0.60 · 1024`
are not integers). -/
theorem predict_prefilter_boundary (m : ModelFn) (labels : List (String × SymbolInfo))
    (img : Image32) (pix : List ℚ)
    (hfg : foreground_fraction pix = MIN_FOREGROUND_FRACTION ∨
      foreground_fraction pix = MAX_FOREGROUND_FRACTION)
    (hstd : ¬ npVariance pix < MIN_STD_DEV ^ 2) :
    (predict (some m) labels (some img) = ⟨unrecognizedResponse, 200, false⟩ ↔
      (Real.sqrt ((npVariance (squeeze (preprocess_image img)) : ℝ)) < 5 / 100 ∨
        foreground_fraction (squeeze (preprocess_image img)) < 2 / 100 ∨
        foreground_fraction (squeeze (preprocess_image img)) > 60 / 100)) ∧
    ((predict (some m) labels (some img)).modelRan = true ↔
      preFilterRejects (squeeze (preprocess_image img)) = false) ∧
    preFilterRejects pix = false := by
  refine ⟨?_, ?_, ?_⟩
  · rw [← preFilterRejects_iff]
    constructor
    · intro h
      by_contra hc
      have hfalse : preFilterRejects (squeeze (preprocess_image img)) = false :=
        Bool.eq_false_iff.mpr hc
      have hmr := congrArg PredictOutcome.modelRan h
      rw [predict_modelRan, hfalse] at hmr
      simp at hmr
    · intro h
      exact predict_reject m labels img h
  · rw [predict_modelRan]
    cases hb : preFilterRejects (squeeze (preprocess_image img)) <;> simp
  · rw [preFilterRejects]
    have h1 : ¬ foreground_fraction pix < MIN_FOREGROUND_FRACTION := by
      rcases hfg with h | h <;> rw [h]
      · exact lt_irrefl _
      · rw [MIN_FOREGROUND_FRACTION, MAX_FOREGROUND_FRACTION]
        norm_num
    have h2 : ¬ foreground_fraction pix > MAX_FOREGROUND_FRACTION := by
      rcases hfg with h | h <;> rw [h]
      · rw [MIN_FOREGROUND_FRACTION, MAX_FOREGROUND_FRACTION]
        norm_num
      · exact lt_irrefl _
    simp [hstd, h1, h2]

theorem predict_prefilter_boundary_witness :
    foreground_fraction pixBoundary = MIN_FOREGROUND_FRACTION ∧
    ¬ npVariance pixBoundary < MIN_STD_DEV ^ 2 ∧
    preFilterRejects pixBoundary = false := by
  have hfg : foreground_fraction pixBoundary = MIN_FOREGROUND_FRACTION := by
    rw [pixBoundary_fg, MIN_FOREGROUND_FRACTION]
  have hstd : ¬ npVariance pixBoundary < MIN_STD_DEV ^ 2 := by
    rw [pixBoundary_var, MIN_STD_DEV]
    norm_num
  exact ⟨hfg, hstd,
    (predict_prefilter_boundary (fun _ => []) [] imgHalf pixBoundary
      (Or.inl hfg) hstd).2.2⟩

/-- **C3.** When the model has run and the predicted class is in the
metadata table: confidence at or above the (inclusive) 0.85 threshold
with at least one non-empty display string returns `recognized` with
success true, carrying symbol = Unicode, Unicode, LaTeX, and the
confidence times 100; at or above the threshold with both display strings
empty returns `data_error`; strictly below the threshold returns
`unrecognized` with success true. -/
theorem predict_confidence_cases (m : ModelFn) (labels : List (String × SymbolInfo))
    (img : Image32) (info : SymbolInfo)
    (hpre : preFilterRejects (squeeze (preprocess_image img)) = false)
    (hlook : labels.lookup (toString (npArgmax (m (preprocess_image img)))) = some info) :
    (CONFIDENCE_THRESHOLD ≤
        (m (preprocess_image img)).getD (npArgmax (m (preprocess_image img))) 0 →
      ¬(info.unicode = "" ∧ info.latex = "") →
      predict (some m) labels (some img) =
        ⟨recognizedResponse info
          ((m (preprocess_image img)).getD (npArgmax (m (preprocess_image img))) 0),
         200, true⟩) ∧
    (CONFIDENCE_THRESHOLD ≤
        (m (preprocess_image img)).getD (npArgmax (m (preprocess_image img))) 0 →
      info.unicode = "" → info.latex = "" →
      predict (some m) labels (some img) = ⟨emptyLabelResponse, 500, true⟩) ∧
    ((m (preprocess_image img)).getD (npArgmax (m (preprocess_image img))) 0 <
        CONFIDENCE_THRESHOLD →
      predict (some m) labels (some img) = ⟨unrecognizedResponse, 200, true⟩) := by
  rw [predict_pass_some m labels img info hpre hlook]
  refine ⟨?_, ?_, ?_⟩
  · intro hc hne
    rw [if_pos hc, if_neg hne]
  · intro hc hu hl
    rw [if_pos hc, if_pos ⟨hu, hl⟩]
  · intro hlt
    rw [if_neg (not_le.mpr hlt)]

theorem predict_confidence_cases_witness :
    predict (some (fun _ => [85 / 100] : ModelFn))
        [("0", ⟨"\\alpha", "α"⟩)] (some imgHalf) =
      ⟨recognizedResponse ⟨"\\alpha", "α"⟩ (85 / 100), 200, true⟩ :=
  (predict_confidence_cases (fun _ => [85 / 100]) [("0", ⟨"\\alpha", "α"⟩)]
    imgHalf ⟨"\\alpha", "α"⟩ imgHalf_prefilter (by decide)).1 (le_refl _) (by simp)

/-- **C4.** Whenever the model runs and its arg-max index, rendered as a
string, is absent from the loaded metadata table, the response is a
`data_error` with success false and HTTP 500, regardless of the predicted
confidence; `predict` is a total function, so the request cannot crash. -/
theorem predict_label_mismatch (m : ModelFn) (labels : List (String × SymbolInfo))
    (img : Image32)
    (hpre : preFilterRejects (squeeze (preprocess_image img)) = false)
    (hlook : labels.lookup (toString (npArgmax (m (preprocess_image img)))) = none) :
    predict (some m) labels (some img) =
      ⟨labelMismatchResponse (npArgmax (m (preprocess_image img))), 500, true⟩ ∧
    (labelMismatchResponse (npArgmax (m (preprocess_image img)))).success = false ∧
    (labelMismatchResponse (npArgmax (m (preprocess_image img)))).status =
      some "data_error" := by
  refine ⟨?_, rfl, rfl⟩
  rw [predict_pass m labels img hpre, hlook]

theorem predict_label_mismatch_witness :
    predict (some (fun _ => [9 / 10] : ModelFn)) [] (some imgHalf) =
      ⟨labelMismatchResponse 0, 500, true⟩ :=
  (predict_label_mismatch (fun _ => [9 / 10]) [] imgHalf imgHalf_prefilter rfl).1

/-- **C7.** For every decoded upload, `preprocess_image` yields a
`(1, 32, 32, 1)`-shaped batch (the shape is the type `Batch`) whose every
element is the corresponding grayscale byte divided by 255 and lies in
`[0, 1]`. -/
theorem preprocess_image_bounds (img : Image32) (b : Fin 1) (i j : Fin 32) (c : Fin 1) :
    0 ≤ preprocess_image img b i j c ∧ preprocess_image img b i j c ≤ 1 ∧
    preprocess_image img b i j c = ((img i j).1 : ℚ) / 255 := by
  refine ⟨?_, ?_, rfl⟩
  · rw [preprocess_image]
    positivity
  · rw [preprocess_image, div_le_one (by norm_num : (0 : ℚ) < 255)]
    have hv : (img i j).1 ≤ 255 := Nat.le_of_lt_succ (img i j).2
    exact_mod_cast hv

/-- **C8.** A startup load failure leaves the model global `None` instead
of aborting, and from then on every `/predict` call — whatever the
request — answers HTTP 500 with success false (`predict` is total, so no
call crashes). -/
theorem startup_failure_predict (e : String) (labels : List (String × SymbolInfo))
    (upload : Option Image32) :
    loadModelStartup (Except.error e) = none ∧
    predict (loadModelStartup (Except.error e)) labels upload =
      ⟨modelNotLoadedResponse, 500, false⟩ ∧
    (predict (loadModelStartup (Except.error e)) labels upload).httpCode = 500 ∧
    (predict (loadModelStartup (Except.error e)) labels upload).body.success = false :=
  ⟨rfl, rfl, rfl, rfl⟩

/-- **C10.** `/health` always answers HTTP 200 with status `"healthy"`,
whatever the load state; the load state shows only through
`model_loaded`, `labels_loaded`, and `num_classes`, the entry count of
the loaded label table. -/
theorem health_always_healthy (model : Option ModelFn)
    (labels : List (String × SymbolInfo)) :
    (health model labels).2 = 200 ∧
    (health model labels).1.status = "healthy" ∧
    (health model labels).1.model_loaded = model.isSome ∧
    (health model labels).1.labels_loaded = decide (0 < labels.length) ∧
    (health model labels).1.num_classes = labels.length :=
  ⟨rfl, rfl, rfl, rfl, rfl⟩

/-- **C6.** The metadata map is keyed by the original symbol id rendered
as a string, with exactly one entry per distinct id (duplicate-free keys),
taken from the id's first-occurring row; the entry's Unicode is the row's
Unicode unless that is blank or `"nan"`, in which case it is the static
table's value for the row's LaTeX when present and `""` otherwise. -/
theorem create_label_mapping_spec (rows : List LabelRow) (sid : String) (r : LabelRow) :
    ((create_label_mapping rows).map Prod.fst).Nodup ∧
    (create_label_mapping rows).lookup sid =
      (rows.find? (fun row => toString row.symbol_id == sid)).map rowEntry ∧
    (rowEntry r).latex = r.latex ∧
    (r.unicode ≠ "" ∧ r.unicode ≠ "nan" → (rowEntry r).unicode = r.unicode) ∧
    ((r.unicode = "" ∨ r.unicode = "nan") →
      (∃ u, latex_to_unicode.lookup r.latex = some u ∧ (rowEntry r).unicode = u) ∨
        (latex_to_unicode.lookup r.latex = none ∧ (rowEntry r).unicode = "")) := by
  refine ⟨create_label_mapping_keys_nodup rows, create_label_mapping_lookup rows sid,
    rfl, ?_, ?_⟩
  · rintro ⟨h1, h2⟩
    show (if r.unicode = "" ∨ r.unicode = "nan" then
        (latex_to_unicode.lookup r.latex).getD "" else r.unicode) = r.unicode
    rw [if_neg]
    rintro (h | h)
    exacts [h1 h, h2 h]
  · intro hcond
    cases hlu : latex_to_unicode.lookup r.latex with
    | none =>
      right
      refine ⟨rfl, ?_⟩
      show (if r.unicode = "" ∨ r.unicode = "nan" then
          (latex_to_unicode.lookup r.latex).getD "" else r.unicode) = ""
      rw [if_pos hcond, hlu]
      rfl
    | some u =>
      left
      refine ⟨u, rfl, ?_⟩
      show (if r.unicode = "" ∨ r.unicode = "nan" then
          (latex_to_unicode.lookup r.latex).getD "" else r.unicode) = u
      rw [if_pos hcond, hlu]
      rfl

/-- Rows exercising the contract: a duplicate id (first row wins) and the
blank/`"nan"` Unicode fallbacks. -/
def rowsW6 : List LabelRow :=
  [⟨5, "\\alpha", "nan"⟩, ⟨5, "x", "x"⟩, ⟨7, "\\sum", ""⟩]

theorem create_label_mapping_spec_witness :
    (create_label_mapping rowsW6).lookup "5" =
      (rowsW6.find? (fun row => toString row.symbol_id == "5")).map rowEntry ∧
    (create_label_mapping rowsW6).lookup "5" = some ⟨"\\alpha", "α"⟩ := by
  refine ⟨(create_label_mapping_spec rowsW6 "5" ⟨5, "\\alpha", "nan"⟩).2.1, ?_⟩
  decide

/-- **C9.** Every entry the builder produces keeps the row's LaTeX string,
which is never empty (a missing cell prints as `"nan"`): no entry has both
display strings empty, so serving that exact table can never reach the
empty-strings `data_error` branch of `/predict`. -/
theorem create_label_mapping_no_empty_entry (rows : List LabelRow)
    (hlatex : ∀ r ∈ rows, r.latex ≠ "") (m : ModelFn) (img : Image32) :
    (∀ sid info, (create_label_mapping rows).lookup sid = some info →
      info.latex ≠ "" ∧ ¬(info.unicode = "" ∧ info.latex = "")) ∧
    (predict (some m) (create_label_mapping rows) (some img)).body ≠
      emptyLabelResponse := by
  have hmain : ∀ sid info, (create_label_mapping rows).lookup sid = some info →
      info.latex ≠ "" :=
    fun sid info h => create_label_mapping_latex_ne rows hlatex sid info h
  refine ⟨fun sid info h =>
    ⟨hmain sid info h, fun he => hmain sid info h he.2⟩, ?_⟩
  by_cases hpre : preFilterRejects (squeeze (preprocess_image img)) = true
  · rw [predict_reject m _ img hpre]
    exact unrecognized_ne_emptyLabel
  · have hf : preFilterRejects (squeeze (preprocess_image img)) = false :=
      Bool.eq_false_iff.mpr hpre
    cases hl : (create_label_mapping rows).lookup
        (toString (npArgmax (m (preprocess_image img)))) with
    | none =>
      rw [predict_pass_none m _ img hf hl]
      exact labelMismatch_ne_emptyLabel _
    | some info =>
      have hne : ¬(info.unicode = "" ∧ info.latex = "") :=
        fun he => hmain _ info hl he.2
      rw [predict_pass_some m _ img info hf hl]
      by_cases hc : CONFIDENCE_THRESHOLD ≤
          (m (preprocess_image img)).getD (npArgmax (m (preprocess_image img))) 0
      · rw [if_pos hc, if_neg hne]
        exact recognized_ne_emptyLabel _ _
      · rw [if_neg hc]
        exact unrecognized_ne_emptyLabel

/-- A row whose LaTeX cell was missing: `str(...)` prints it as `"nan"`,
which is non-empty. -/
def rowsW9 : List LabelRow := [⟨3, "nan", ""⟩]

theorem create_label_mapping_no_empty_entry_witness :
    (predict (some (fun _ => [9 / 10] : ModelFn)) (create_label_mapping rowsW9)
      (some imgHalf)).body ≠ emptyLabelResponse :=
  (create_label_mapping_no_empty_entry rowsW9 (by decide) (fun _ => [9 / 10]) imgHalf).2

end Matheye
